import Mathlib

/-!
Verification of the k8scp stream-copy core (src/src/main.rs).

Bytes are modelled as `Nat` (each value < 256 in practice; no claim depends
on the bound).  Rust `String`s are modelled by their UTF-8 byte sequences
(`List Nat`), so that `push_str` is `List.append` and decoding questions
stay at the byte level.
-/

namespace K8scp

/-- The UTF-8 bytes of the literal replacement marker `"[not utf8]"` that
`StringWriter::poll_write` appends when `std::str::from_utf8` fails. -/
def utf8Marker : List Nat := [91, 110, 111, 116, 32, 117, 116, 102, 56, 93]

/-- A UTF-8 continuation byte: `0x80 ..= 0xBF`. -/
def isUtf8Cont (b : Nat) : Bool := 128 ≤ b && b ≤ 191

/-- Validity of a byte sequence as UTF-8, exactly the check performed by
Rust's `std::str::from_utf8` (RFC 3629: no overlong encodings, no
surrogates `U+D800..U+DFFF`, maximum scalar `U+10FFFF`). -/
def validUtf8 : List Nat → Bool
  | [] => true
  | b :: rest =>
    if b ≤ 127 then validUtf8 rest
    else if 194 ≤ b && b ≤ 223 then
      match rest with
      | c1 :: rest2 => isUtf8Cont c1 && validUtf8 rest2
      | [] => false
    else if b == 224 then
      match rest with
      | c1 :: c2 :: rest2 => (160 ≤ c1 && c1 ≤ 191) && isUtf8Cont c2 && validUtf8 rest2
      | _ => false
    else if (225 ≤ b && b ≤ 236) || b == 238 || b == 239 then
      match rest with
      | c1 :: c2 :: rest2 => isUtf8Cont c1 && isUtf8Cont c2 && validUtf8 rest2
      | _ => false
    else if b == 237 then
      match rest with
      | c1 :: c2 :: rest2 => (128 ≤ c1 && c1 ≤ 159) && isUtf8Cont c2 && validUtf8 rest2
      | _ => false
    else if b == 240 then
      match rest with
      | c1 :: c2 :: c3 :: rest2 =>
        (144 ≤ c1 && c1 ≤ 191) && isUtf8Cont c2 && isUtf8Cont c3 && validUtf8 rest2
      | _ => false
    else if 241 ≤ b && b ≤ 243 then
      match rest with
      | c1 :: c2 :: c3 :: rest2 =>
        isUtf8Cont c1 && isUtf8Cont c2 && isUtf8Cont c3 && validUtf8 rest2
      | _ => false
    else if b == 244 then
      match rest with
      | c1 :: c2 :: c3 :: rest2 =>
        (128 ≤ c1 && c1 ≤ 143) && isUtf8Cont c2 && isUtf8Cont c3 && validUtf8 rest2
      | _ => false
    else false

/-- The text `StringWriter::poll_write` actually appends for a chunk `buf`:
`std::str::from_utf8(buf).unwrap_or("[not utf8]")`. -/
def decodeChunk (buf : List Nat) : List Nat :=
  if validUtf8 buf then buf else utf8Marker

/-- `struct StringWriter { str: String }` — the captured sink accumulating
remote stdout/stderr.  `str` holds the UTF-8 bytes of the Rust `String`. -/
structure StringWriter where
  str : List Nat
deriving DecidableEq

/-- Outcome of one `poll_write` call: the updated writer together with the
returned `Poll::Ready(Result<usize, Error>)` (this writer never returns
`Pending`, so the `Poll` layer is dropped). -/
structure WriteResult where
  writer : StringWriter
  result : Except String Nat

/-- `StringWriter::poll_write`:
`self.str.push_str(std::str::from_utf8(buf).unwrap_or("[not utf8]"));
Poll::Ready(Ok(buf.len()))`. -/
def StringWriter.poll_write (w : StringWriter) (buf : List Nat) : WriteResult :=
  { writer := { str := w.str ++ decodeChunk buf }
    result := .ok buf.length }

/-- `StringWriter::poll_flush`: `Poll::Ready(Ok(()))`, no state change. -/
def StringWriter.poll_flush (w : StringWriter) : StringWriter × Except String Unit :=
  (w, .ok ())

/-- `StringWriter::poll_shutdown`: `Poll::Ready(Ok(()))`, no state change. -/
def StringWriter.poll_shutdown (w : StringWriter) : StringWriter × Except String Unit :=
  (w, .ok ())

/-- The single producer's whole write sequence: fold `poll_write` over the
chunks, in write order. -/
def writeAll (w : StringWriter) (chunks : List (List Nat)) : StringWriter :=
  chunks.foldl (fun acc c => (StringWriter.poll_write acc c).writer) w

theorem writeAll_str (chunks : List (List Nat)) (w : StringWriter) :
    (writeAll w chunks).str = w.str ++ (chunks.map decodeChunk).flatten := by
  induction chunks generalizing w with
  | nil => simp [writeAll]
  | cons c rest ih =>
    simp only [writeAll, List.foldl_cons, List.map_cons, List.flatten_cons] at *
    rw [ih]
    simp [StringWriter.poll_write, List.append_assoc]

/-!
Mutex-serialized access traces for a captured sink.

In `main` each sink lives in an `Arc<Mutex<StringWriter>>`; the pump's
writes and the orchestrator's reads each run while holding the mutex, so
an execution is an interleaving of atomic sink operations.  A trace is the
sequence, in real-time order, of the mutex-protected operations that the
writer task and the reader perform on one sink.
-/

/-- One mutex-protected operation on a captured sink: a producer
`poll_write` of a chunk, or a reader access of `.str` (the snapshot taken
by `main` via `stdout.lock().await.str`). -/
inductive SinkOp where
  | write (chunk : List Nat)
  | snapshot
deriving DecidableEq

/-- The chunks written along a trace, in write order. -/
def allWrites : List SinkOp → List (List Nat)
  | [] => []
  | .write c :: rest => c :: allWrites rest
  | .snapshot :: rest => allWrites rest

/-- For each snapshot in the trace, the number of writes that precede it
(`n` counts the writes already performed). -/
def snapshotCounts : List SinkOp → Nat → List Nat
  | [], _ => []
  | .write _ :: rest, n => snapshotCounts rest (n + 1)
  | .snapshot :: rest, n => n :: snapshotCounts rest n

/-- Execute a trace of mutex-serialized sink operations: returns the final
writer state and the list of contents observed by the snapshots, in trace
order. -/
def runOps (w : StringWriter) : List SinkOp → StringWriter × List (List Nat)
  | [] => (w, [])
  | .write c :: rest => runOps (StringWriter.poll_write w c).writer rest
  | .snapshot :: rest =>
    let r := runOps w rest
    (r.1, w.str :: r.2)

theorem snapshotCounts_shift (ops : List SinkOp) (n : Nat) :
    snapshotCounts ops (n + 1) = (snapshotCounts ops n).map (· + 1) := by
  induction ops generalizing n with
  | nil => rfl
  | cons op rest ih =>
    cases op with
    | write c => simpa [snapshotCounts] using ih (n + 1)
    | snapshot => simp [snapshotCounts, ih n]

theorem runOps_snapshots (ops : List SinkOp) (w : StringWriter) :
    (runOps w ops).2 =
      (snapshotCounts ops 0).map (fun n => (writeAll w ((allWrites ops).take n)).str) := by
  induction ops generalizing w with
  | nil => rfl
  | cons op rest ih =>
    cases op with
    | write c =>
      simp only [runOps, allWrites, snapshotCounts]
      rw [ih, snapshotCounts_shift rest 0, List.map_map]
      apply List.map_congr_left
      intro n _
      simp [writeAll]
    | snapshot =>
      simp [runOps, allWrites, snapshotCounts, ih w, writeAll]

theorem snapshotCounts_le (ops : List SinkOp) (n : Nat) :
    (snapshotCounts ops n).all (fun m => m ≤ n + (allWrites ops).length) = true := by
  induction ops generalizing n with
  | nil => rfl
  | cons op rest ih =>
    cases op with
    | write c =>
      simp only [snapshotCounts, allWrites, List.length_cons]
      have := ih (n + 1)
      simp only [List.all_eq_true, decide_eq_true_eq] at this ⊢
      intro m hm
      have := this m hm
      omega
    | snapshot =>
      simp only [snapshotCounts, allWrites, List.all_cons, Bool.and_eq_true, decide_eq_true_eq]
      refine ⟨by omega, ?_⟩
      exact ih n

/-!
The progress-tracked source `FileProcessReader`.

`total` is `tokio::fs::metadata(path).len()`, i.e. the length in bytes of
the underlying file, which is modelled as the byte list `fileData` with
read position `filePos`.  `cur` is the `u64` counter (file sizes keep it
far below `2^64`, so plain `Nat` arithmetic is faithful).  `pb` is the
optional progress bar; an observer invocation `pb.set_position(v)` is
recorded as the event `v`.
-/

/-- `struct FileProcessReader { file, cur: u64, total: u64, pb: Option<Arc<ProgressBar>> }`. -/
structure FileProcessReader where
  fileData : List Nat
  filePos : Nat
  cur : Nat
  total : Nat
  pb : Option Unit
deriving DecidableEq

/-- `FileProcessReader::new`: open the file at position 0 with `cur = 0`,
`total` the file's metadata length, and no progress bar. -/
def FileProcessReader.new (fileData : List Nat) : FileProcessReader :=
  { fileData := fileData, filePos := 0, cur := 0, total := fileData.length, pb := none }

/-- `main` line 120: `f_reader.pb = Some(pb.clone())`. -/
def withProgressBar (r : FileProcessReader) : FileProcessReader :=
  { r with pb := some () }

/-- Outcome of one successful `poll_read`: the updated reader, the buffer's
filled contents after the call, and the observer invocations (each event is
the offset passed to `pb.set_position`). -/
structure ReadResult where
  reader : FileProcessReader
  buf : List Nat
  events : List Nat
deriving DecidableEq

/-- `FileProcessReader::poll_read` on the `Ready(Ok(()))` path.  The
underlying `tokio::fs::File` read appends up to the buffer's remaining
capacity from the current file position (a regular file fills as much as
is available); then `self.cur += buf.filled().len()` and, if a progress
bar is present, `pb.set_position(self.cur)`.  `bufInit` is the buffer's
already-filled content on entry — `tokio::io::copy` passes an empty buffer
on a fresh read, but re-polls with the buffer still filled
(`buf.set_filled(cap)` in `poll_fill_buf`) when a write returned `Pending`
and read capacity remains — and `cap` is the buffer's total capacity. -/
def FileProcessReader.poll_read (r : FileProcessReader) (bufInit : List Nat) (cap : Nat) :
    ReadResult :=
  let n := min (cap - bufInit.length) (r.fileData.length - r.filePos)
  let buf := bufInit ++ (r.fileData.drop r.filePos).take n
  let cur := r.cur + buf.length
  { reader := { r with filePos := r.filePos + n, cur := cur }
    buf := buf
    events := match r.pb with | some _ => [cur] | none => [] }

/-- `tokio::io::copy(&mut f_reader, &mut dest)` for a destination of
unlimited capacity (every written chunk is accepted whole, as the attached
stdin endpoint does): repeatedly read into a fresh buffer of capacity `k`
(tokio uses an 8 KiB buffer), append what was read to `dest`, and stop at
the first zero-byte read (EOF).  Returns the final reader, the destination
contents, and the `u64` total returned by `copy`. -/
def ioCopy (k : Nat) (r : FileProcessReader) (dest : List Nat) (copied : Nat) :
    FileProcessReader × List Nat × Nat :=
  if _h : (r.poll_read [] k).buf.length = 0 then ((r.poll_read [] k).reader, dest, copied)
  else ioCopy k (r.poll_read [] k).reader (dest ++ (r.poll_read [] k).buf)
    (copied + (r.poll_read [] k).buf.length)
termination_by r.fileData.length - r.filePos
decreasing_by
  simp only [FileProcessReader.poll_read, List.length_append, List.length_nil,
    List.nil_append, List.length_take, List.length_drop] at _h ⊢
  omega

theorem ioCopy_drains (k : Nat) (hk : 1 ≤ k) (r : FileProcessReader) (dest : List Nat)
    (copied : Nat) :
    r.filePos ≤ r.fileData.length →
    (ioCopy k r dest copied).2.1 = dest ++ r.fileData.drop r.filePos ∧
      (ioCopy k r dest copied).2.2 = copied + (r.fileData.length - r.filePos) ∧
      (ioCopy k r dest copied).1.filePos = r.fileData.length := by
  induction r, dest, copied using ioCopy.induct k with
  | case1 r dest copied _h =>
    intro hpos
    rw [ioCopy.eq_def, dif_pos _h]
    simp only [FileProcessReader.poll_read, List.length_append, List.length_nil,
      List.nil_append, List.length_take, List.length_drop, Nat.sub_zero] at _h
    have hlen : r.fileData.length = r.filePos := by omega
    refine ⟨?_, ?_, ?_⟩
    · rw [List.drop_eq_nil_of_le (by omega)]; simp
    · show copied = copied + (r.fileData.length - r.filePos)
      omega
    · simp only [FileProcessReader.poll_read]
      show r.filePos + _ = r.fileData.length
      omega
  | case2 r dest copied _h ih =>
    intro hpos
    rw [ioCopy.eq_def, dif_neg _h]
    simp only [FileProcessReader.poll_read, List.length_append, List.length_nil,
      List.nil_append, List.length_take, List.length_drop, Nat.sub_zero] at _h ih ⊢
    specialize ih (by omega)
    obtain ⟨h1, h2, h3⟩ := ih
    refine ⟨?_, ?_, ?_⟩
    · rw [h1, List.append_assoc]
      congr 1
      have hdd : r.fileData.drop
          (r.filePos + min k (r.fileData.length - r.filePos)) =
          (r.fileData.drop r.filePos).drop (min k (r.fileData.length - r.filePos)) := by
        rw [List.drop_drop, Nat.add_comm]
      rw [hdd, List.take_append_drop]
    · rw [h2]
      omega
    · rw [h3]

/-!
The session orchestrator (`main`, lines 136-192).
-/

/-- The three stream directions of an attached process. -/
inductive Direction where
  | stdin | stdout | stderr
deriving DecidableEq

/-- The fields of kube's `AttachParams` that decide which directions are
wired (plus the container selector `main` may set). -/
structure AttachParams where
  stdin : Bool
  stdout : Bool
  stderr : Bool
  tty : Bool
  container : Option String
deriving DecidableEq

/-- `AttachParams::default()` (kube-rs): stdin off, stdout and stderr on,
no tty, no container selector. -/
def AttachParams.default : AttachParams :=
  { stdin := false, stdout := true, stderr := true, tty := false, container := none }

/-- The builder method `.stdin(b)`. -/
def AttachParams.setStdin (ap : AttachParams) (b : Bool) : AttachParams :=
  { ap with stdin := b }

/-- The builder method `.container(c)`. -/
def AttachParams.setContainer (ap : AttachParams) (c : String) : AttachParams :=
  { ap with container := some c }

/-- Whether a direction is wired by the given attach parameters. -/
def AttachParams.isActive (ap : AttachParams) : Direction → Bool
  | .stdin => ap.stdin
  | .stdout => ap.stdout
  | .stderr => ap.stderr

/-- The attach parameters `main` builds (lines 138-141):
`AttachParams::default().stdin(true)`, then `.container(c)` only when the
`--container` argument is non-empty. -/
def mainAttachParams (container : String) : AttachParams :=
  let ap := AttachParams.default.setStdin true
  if container.isEmpty then ap else ap.setContainer container

/-- The pump tasks `main` spawns, one `tokio::spawn` per direction
(lines 160, 169, 178), in program order. -/
def spawnedPumps : List Direction := [.stdin, .stdout, .stderr]

/-- The captured sinks `main` constructs (lines 167 and 176): one
`Arc<Mutex<StringWriter>>` for stdout and one for stderr; stdin's
destination is the remote endpoint, not a captured sink. -/
def constructedSinks : List Direction := [.stdout, .stderr]

/-- Outcome of one spawned pump task: `tokio::io::copy(..).await.unwrap()`
completes when the copy returns `Ok(n)` and panics on `Err` — the panic is
confined to the spawned task (tokio catches panics at task boundaries). -/
inductive TaskOutcome where
  | completed (n : Nat)
  | panicked (e : String)
deriving DecidableEq

/-- The body of each spawned pump task applied to its copy result. -/
def pumpTask (copyResult : Except String Nat) : TaskOutcome :=
  match copyResult with
  | .ok n => .completed n
  | .error e => .panicked e

/-- The three pump copy results of one session (what each
`tokio::io::copy` returns, determined by the remote endpoints). -/
structure PumpResults where
  stdinCopy : Except String Nat
  stdoutCopy : Except String Nat
  stderrCopy : Except String Nat

/-- What the orchestrator (the main task) does and observes after spawning
the pumps. -/
structure OrchestratorOutcome where
  stdinTask : TaskOutcome
  stdoutTask : TaskOutcome
  stderrTask : TaskOutcome
  awaitedStatus : Bool
  reportedPumpFailures : List String
deriving DecidableEq

/-- `main` after the three `tokio::spawn` calls (lines 160-192): each pump
runs as its own task on its own copy result; the main task then executes
`attached.take_status().unwrap().await` unconditionally — it never joins,
inspects, or branches on the pump tasks (their `JoinHandle`s are dropped at
the spawn sites), so no pump failure is ever collected or reported by the
orchestrator. -/
def orchestrate (res : PumpResults) : OrchestratorOutcome :=
  { stdinTask := pumpTask res.stdinCopy
    stdoutTask := pumpTask res.stdoutCopy
    stderrTask := pumpTask res.stderrCopy
    awaitedStatus := true
    reportedPumpFailures := [] }

/-!
The remote command (`main`, lines 143-152).
-/

/-- Split a character sequence at every `'/'` separator. -/
def splitPath : List Char → List (List Char)
  | [] => [[]]
  | c :: rest =>
    if c = '/' then [] :: splitPath rest
    else
      match splitPath rest with
      | s :: ss => (c :: s) :: ss
      | [] => [[c]]

/-- `Path::new(path).file_name()`: the final normal component of the path,
after dropping empty components and `"."`; `none` when the path is empty,
is a root, or terminates in `".."`. -/
def fileName (path : String) : Option String :=
  let comps := (splitPath path.toList).filter (fun c => c != [] && c != ['.'])
  match comps.getLast? with
  | some c => if c = ['.', '.'] then none else some (String.mk c)
  | none => none

/-- The shell line `main` formats:
`format!("mkdir -p {} && cd {} && cat > {}", dst, dst, file_name(src))`.
`none` models the `unwrap()` panic when `file_name` is `None`. -/
def execStr (src dst : String) : Option String :=
  (fileName src).map
    (fun name => "mkdir -p " ++ dst ++ " && cd " ++ dst ++ " && cat > " ++ name)

/-- The argument vector passed to `pods.exec`:
`vec!["sh", "-c", exec.as_str()]`. -/
def execCommand (src dst : String) : Option (List String) :=
  (execStr src dst).map (fun e => ["sh", "-c", e])

/-!
Claim theorems.
-/

/-- Claim C1, counterexample to the claim as stated: a single written chunk
`[255]` is not valid UTF-8, so the sink's accumulated content is the
marker `"[not utf8]"`, not the concatenation `[255]` of the written byte
chunks. -/
theorem sink_not_exact_byte_concat :
    (writeAll ⟨[]⟩ [[255]]).str ≠ ([[255]] : List (List Nat)).flatten := by
  decide

/-- Claim C1 (amended): after the single producer writes its chunks in
order, the sink's content is the concatenation, in write order, of the
per-chunk decoded texts (the chunk itself when it is valid UTF-8, the
marker `"[not utf8]"` otherwise); in particular, when every chunk is valid
UTF-8 the content is the exact concatenation of the written byte chunks,
with no interleaving corruption. -/
theorem sink_content_decoded_concat (chunks : List (List Nat)) :
    (writeAll ⟨[]⟩ chunks).str = (chunks.map decodeChunk).flatten ∧
      (chunks.all validUtf8 = true → (writeAll ⟨[]⟩ chunks).str = chunks.flatten) := by
  constructor
  · simpa using writeAll_str chunks ⟨[]⟩
  · intro hv
    rw [writeAll_str]
    have hmap : chunks.map decodeChunk = chunks := by
      calc chunks.map decodeChunk
          = chunks.map id := List.map_congr_left (fun c hc => by
            simp [decodeChunk, List.all_eq_true.mp hv c hc])
        _ = chunks := List.map_id chunks
    simp [hmap]

/-- Claim C1 witness: two ASCII chunks `"hi"` and `"!"` are captured as
their exact concatenation. -/
theorem sink_content_decoded_concat_witness :
    (writeAll ⟨[]⟩ [[104, 105], [33]]).str = ([[104, 105], [33]].map decodeChunk).flatten ∧
      (writeAll ⟨[]⟩ [[104, 105], [33]]).str = [[104, 105], [33]].flatten :=
  ⟨(sink_content_decoded_concat [[104, 105], [33]]).1,
   (sink_content_decoded_concat [[104, 105], [33]]).2 (by decide)⟩

/-- Claim C2: copying a source of `S = l.length` bytes with any buffer
capacity `k ≥ 1` into an unlimited-capacity destination delivers the
source bytes exactly and in order, returns the count `S`, and terminates
with the source fully consumed (at EOF). -/
theorem pump_delivers_source_exactly (l : List Nat) (k : Nat) (hk : 1 ≤ k) :
    (ioCopy k (withProgressBar (FileProcessReader.new l)) [] 0).2.1 = l ∧
      (ioCopy k (withProgressBar (FileProcessReader.new l)) [] 0).2.2 = l.length ∧
      (ioCopy k (withProgressBar (FileProcessReader.new l)) [] 0).1.filePos = l.length := by
  have h := ioCopy_drains k hk (withProgressBar (FileProcessReader.new l)) [] 0
    (by simp [withProgressBar, FileProcessReader.new])
  simpa [withProgressBar, FileProcessReader.new] using h

/-- Claim C2 witness: a 3-byte source copied with a 2-byte buffer. -/
theorem pump_delivers_source_exactly_witness :
    (ioCopy 2 (withProgressBar (FileProcessReader.new [10, 20, 30])) [] 0).2.1 =
        [10, 20, 30] ∧
      (ioCopy 2 (withProgressBar (FileProcessReader.new [10, 20, 30])) [] 0).2.2 = 3 ∧
      (ioCopy 2 (withProgressBar (FileProcessReader.new [10, 20, 30])) [] 0).1.filePos = 3 :=
  pump_delivers_source_exactly [10, 20, 30] 2 (by decide)

/-- Claim C3, code bug at a concrete failing input: `poll_read` adds
`buf.filled().len()` to `cur` instead of the bytes this read appended, so a
read issued with the buffer already partially filled double-counts.
`tokio::io::copy` performs exactly such reads: after a write returns
`Pending` with read capacity left, `poll_fill_buf` re-polls the reader with
the buffer still filled (`buf.set_filled(cap)`).  On the 3-byte file
`[1, 2, 3]`: the first read (empty buffer, capacity 3) returns 3 bytes and
sets `cur = 3`; the second read (buffer still holding those 3 bytes)
appends 0 new bytes yet sets `cur = 6` — so after two successful reads
`cur = 6` differs from the sum `3 + 0` of the bytes they returned and
exceeds the recorded `total = 3`, contradicting the claim. -/
theorem cur_double_counts_on_refill :
    ((FileProcessReader.new [1, 2, 3]).poll_read [] 3).buf = [1, 2, 3] ∧
      ((FileProcessReader.new [1, 2, 3]).poll_read [] 3).reader.cur = 3 ∧
      (((FileProcessReader.new [1, 2, 3]).poll_read [] 3).reader.poll_read
        [1, 2, 3] 3).buf = [1, 2, 3] ∧
      (((FileProcessReader.new [1, 2, 3]).poll_read [] 3).reader.poll_read
        [1, 2, 3] 3).reader.cur = 6 ∧
      (((FileProcessReader.new [1, 2, 3]).poll_read [] 3).reader.poll_read
        [1, 2, 3] 3).reader.total = 3 ∧
      ¬(((FileProcessReader.new [1, 2, 3]).poll_read [] 3).reader.poll_read
          [1, 2, 3] 3).reader.cur ≤
        (((FileProcessReader.new [1, 2, 3]).poll_read [] 3).reader.poll_read
          [1, 2, 3] 3).reader.total := by
  decide

/-- Claim C4, counterexample to the claim as stated: after the final real
read of a one-byte file (which leaves `cur = 1`), the next read returns
EOF with zero bytes, yet the progress observer is still invoked (with the
unchanged offset 1) — `poll_read` guards the observer call only on
`Ready(Ok(()))`, which EOF also satisfies. -/
theorem observer_invoked_at_eof :
    (((withProgressBar (FileProcessReader.new [42])).poll_read [] 8).reader.poll_read
        [] 8).buf = [] ∧
      (((withProgressBar (FileProcessReader.new [42])).poll_read [] 8).reader.poll_read
        [] 8).events = [1] ∧
      ((withProgressBar (FileProcessReader.new [42])).poll_read [] 8).reader.cur = 1 := by
  decide

/-- Claim C4 (amended): on every successful read — partial reads and
EOF-with-zero-bytes alike — the progress observer, when present, is
invoked synchronously before the read returns, with the new cumulative
offset (which on EOF equals the old one). -/
theorem observer_invoked_every_read (r : FileProcessReader) (bufInit : List Nat)
    (cap : Nat) (hpb : r.pb = some ()) :
    (r.poll_read bufInit cap).events = [(r.poll_read bufInit cap).reader.cur] ∧
      (r.poll_read bufInit cap).reader.cur = r.cur + (r.poll_read bufInit cap).buf.length := by
  simp [FileProcessReader.poll_read, hpb]

/-- Claim C4 witness: a partial read of a one-byte file with the progress
bar attached. -/
theorem observer_invoked_every_read_witness :
    ((withProgressBar (FileProcessReader.new [5])).poll_read [] 4).events =
        [((withProgressBar (FileProcessReader.new [5])).poll_read [] 4).reader.cur] ∧
      ((withProgressBar (FileProcessReader.new [5])).poll_read [] 4).reader.cur =
        (withProgressBar (FileProcessReader.new [5])).cur +
          ((withProgressBar (FileProcessReader.new [5])).poll_read [] 4).buf.length :=
  observer_invoked_every_read (withProgressBar (FileProcessReader.new [5])) [] 4 rfl

/-- Claim C5: `poll_write` returns success (`Ok(buf.len())`) for every
input chunk; when the chunk fails to decode as UTF-8 text, the replacement
marker is appended instead of an error being returned, so capture
continues. -/
theorem poll_write_never_errors (w : StringWriter) (buf : List Nat) :
    (StringWriter.poll_write w buf).result = .ok buf.length ∧
      (validUtf8 buf = false →
        (StringWriter.poll_write w buf).writer.str = w.str ++ utf8Marker) := by
  refine ⟨rfl, fun hv => ?_⟩
  simp [StringWriter.poll_write, decodeChunk, hv]

/-- Claim C5 witness: the invalid chunk `[255]` is accepted with success
and captured as the marker. -/
theorem poll_write_never_errors_witness :
    (StringWriter.poll_write ⟨[]⟩ [255]).result = .ok 1 ∧
      (StringWriter.poll_write ⟨[]⟩ [255]).writer.str = [] ++ utf8Marker :=
  ⟨(poll_write_never_errors ⟨[]⟩ [255]).1,
   (poll_write_never_errors ⟨[]⟩ [255]).2 (by decide)⟩

/-- Claim C6, counterexample to the claim as stated: when the stdin pump's
copy fails (e.g. a write failure on a detached remote endpoint), its task
panics via `unwrap` and the orchestrator reports nothing — the list of
pump failures it surfaces is empty — even though the other directions
complete and the completion signal is still awaited.  The failure is
therefore not reported, contrary to the claim. -/
theorem pump_failure_unreported :
    (orchestrate ⟨.error "broken pipe", .ok 0, .ok 0⟩).reportedPumpFailures = [] ∧
      (orchestrate ⟨.error "broken pipe", .ok 0, .ok 0⟩).stdinTask =
        .panicked "broken pipe" ∧
      (orchestrate ⟨.error "broken pipe", .ok 0, .ok 0⟩).awaitedStatus = true ∧
      (orchestrate ⟨.error "broken pipe", .ok 0, .ok 0⟩).stdoutTask = .completed 0 ∧
      (orchestrate ⟨.error "broken pipe", .ok 0, .ok 0⟩).stderrTask = .completed 0 :=
  ⟨rfl, rfl, rfl, rfl, rfl⟩

/-- Claim C6 (amended): a pump I/O error is local to its own task — each
direction's outcome depends only on that direction's copy result, so
changing one pump's result (e.g. from success to failure) leaves the other
directions' outcomes unchanged — and the orchestrator unconditionally
awaits the session's completion signal; but the failure is not reported to
the orchestrator (the spawned tasks' join handles are dropped and no pump
outcome is ever collected). -/
theorem pump_failure_isolated (res alt : PumpResults)
    (hout : res.stdoutCopy = alt.stdoutCopy) (herr : res.stderrCopy = alt.stderrCopy) :
    (orchestrate res).stdoutTask = (orchestrate alt).stdoutTask ∧
      (orchestrate res).stderrTask = (orchestrate alt).stderrTask ∧
      (orchestrate res).awaitedStatus = true ∧
      (orchestrate res).reportedPumpFailures = [] := by
  simp [orchestrate, hout, herr]

/-- Claim C6 witness: a failing stdin pump beside a successful run with the
same stdout/stderr results. -/
theorem pump_failure_isolated_witness :
    (orchestrate ⟨.error "broken pipe", .ok 3, .ok 0⟩).stdoutTask =
        (orchestrate ⟨.ok 9, .ok 3, .ok 0⟩).stdoutTask ∧
      (orchestrate ⟨.error "broken pipe", .ok 3, .ok 0⟩).stderrTask =
        (orchestrate ⟨.ok 9, .ok 3, .ok 0⟩).stderrTask ∧
      (orchestrate ⟨.error "broken pipe", .ok 3, .ok 0⟩).awaitedStatus = true ∧
      (orchestrate ⟨.error "broken pipe", .ok 3, .ok 0⟩).reportedPumpFailures = [] :=
  pump_failure_isolated ⟨.error "broken pipe", .ok 3, .ok 0⟩ ⟨.ok 9, .ok 3, .ok 0⟩ rfl rfl

/-- Claim C7: with the attach parameters `main` builds, every direction is
active; exactly one pump is spawned per active direction, no pump for an
inactive one, and a captured sink is constructed exactly for the active
non-stdin directions (stdout and stderr). -/
theorem one_pump_per_active_direction (c : String) (d : Direction) :
    spawnedPumps.count d = (if (mainAttachParams c).isActive d then 1 else 0) ∧
      constructedSinks.count d =
        (if (mainAttachParams c).isActive d ∧ d ≠ Direction.stdin then 1 else 0) := by
  have hap : (mainAttachParams c).stdin = true ∧ (mainAttachParams c).stdout = true ∧
      (mainAttachParams c).stderr = true := by
    by_cases hc : c.isEmpty <;>
      simp [mainAttachParams, hc, AttachParams.default, AttachParams.setStdin,
        AttachParams.setContainer]
  obtain ⟨h1, h2, h3⟩ := hap
  cases d <;>
    simp [AttachParams.isActive, h1, h2, h3, spawnedPumps, constructedSinks,
      List.count_cons, List.count_nil]

/-- Claim C8: along any mutex-serialized trace of producer writes and
reader snapshots on one sink, every snapshot observes exactly the content
produced by the writes that precede it — a consistent prefix of the write
sequence, never a torn write. -/
theorem snapshots_see_consistent_prefixes (ops : List SinkOp) :
    (runOps ⟨[]⟩ ops).2 =
      (snapshotCounts ops 0).map
        (fun n => (writeAll ⟨[]⟩ ((allWrites ops).take n)).str) ∧
      (snapshotCounts ops 0).all (fun n => n ≤ (allWrites ops).length) = true := by
  refine ⟨runOps_snapshots ops ⟨[]⟩, ?_⟩
  have h := snapshotCounts_le ops 0
  simpa using h

/-- Claim C9: whenever the source path has a final file-name component,
the remote command is exactly
`["sh", "-c", "mkdir -p {dst} && cd {dst} && cat > {basename}"]`, with the
destination and basename interpolated verbatim — no quoting or escaping of
shell metacharacters. -/
theorem remote_command_verbatim (src dst name : String) (h : fileName src = some name) :
    execCommand src dst =
      some ["sh", "-c",
        "mkdir -p " ++ dst ++ " && cd " ++ dst ++ " && cat > " ++ name] := by
  simp [execCommand, execStr, h]

/-- Claim C9 witness: a destination containing shell metacharacters is
interpolated verbatim into the command line. -/
theorem remote_command_verbatim_witness :
    execCommand "payload/run.sh" "/data; echo pwned" =
      some ["sh", "-c",
        "mkdir -p " ++ "/data; echo pwned" ++ " && cd " ++ "/data; echo pwned" ++
          " && cat > " ++ "run.sh"] :=
  remote_command_verbatim "payload/run.sh" "/data; echo pwned" "run.sh" (by decide)

/-- Claim C10: a chunk that is not valid UTF-8 in its entirety is wholly
discarded — none of its bytes, not even a valid UTF-8 prefix, is appended —
and replaced by the single marker `"[not utf8]"`, while the write still
reports the full chunk length as consumed. -/
theorem invalid_chunk_fully_replaced (w : StringWriter) (buf : List Nat)
    (hv : validUtf8 buf = false) :
    (StringWriter.poll_write w buf).writer.str = w.str ++ utf8Marker ∧
      (StringWriter.poll_write w buf).result = .ok buf.length := by
  refine ⟨?_, rfl⟩
  simp [StringWriter.poll_write, decodeChunk, hv]

/-- Claim C10 witness: the chunk `"hi" ++ [255]` has a valid ASCII prefix,
yet the captured content is only the marker, and all 3 bytes are reported
consumed. -/
theorem invalid_chunk_fully_replaced_witness :
    (StringWriter.poll_write ⟨[]⟩ [104, 105, 255]).writer.str = [] ++ utf8Marker ∧
      (StringWriter.poll_write ⟨[]⟩ [104, 105, 255]).result = .ok 3 :=
  invalid_chunk_fully_replaced ⟨[]⟩ [104, 105, 255] (by decide)

end K8scp
